import Mathlib

/-!
# Verification of the minply audio player core

This file is a shallow embedding of `src/minply.cpp` and proofs about it.

Conventions of the embedding:
* A file on disk is a `List ℕ` of bytes (each < 256 in well-formed inputs).
* `float` samples are modelled by exact rational arithmetic (`ℚ`); the float
  constants `0.7f`, `0.005f` are embedded as the exact rationals `7/10` and
  `5/1000`, and machine casts to unsigned integers as `Nat.floor`.  The one
  lossy float operation on the direct path — the `int32 → float` cast of the
  32-bit sample conversion — is modelled with its round-to-nearest-even
  semantics (`toFloat32`).
* `ReadFile` never fails at the OS level; at end of file it delivers fewer
  bytes than requested (`bytesRead < requested`), which is exactly what the
  C++ code checks for where it cares.
* Machine integers are `ℕ`/`ℤ`; two's-complement reinterpretation is explicit
  (`toSigned16` and friends).
-/

/-- `0.7f`: lead-in silence duration in seconds (`SILENCE_DURATION`). -/
def SILENCE_DURATION : ℚ := 7 / 10

/-- `0.005f`: fade in/out duration in seconds (`FADE_DURATION`). -/
def FADE_DURATION : ℚ := 5 / 1000

/-- `ReadFile` of `n` bytes at offset `pos`: returns the bytes actually read
(`bytesRead = (readAt file pos n).length`, which is less than `n` when the
read runs past end of file). -/
def readAt (file : List ℕ) (pos n : ℕ) : List ℕ :=
  (file.drop pos).take n

/-- Little-endian 16-bit value at offset `k` of a byte list. -/
def le16at (bs : List ℕ) (k : ℕ) : ℕ :=
  bs.getD k 0 + 256 * bs.getD (k + 1) 0

/-- Little-endian 32-bit value at offset `k` of a byte list. -/
def le32at (bs : List ℕ) (k : ℕ) : ℕ :=
  bs.getD k 0 + 256 * bs.getD (k + 1) 0 + 65536 * bs.getD (k + 2) 0 +
    16777216 * bs.getD (k + 3) 0

/-- Reinterpret a 16-bit unsigned value as two's-complement `int16_t`. -/
def toSigned16 (u : ℕ) : ℤ :=
  if u < 32768 then (u : ℤ) else (u : ℤ) - 65536

/-- Reinterpret a 24-bit unsigned value as a sign-extended 24-bit integer. -/
def toSigned24 (u : ℕ) : ℤ :=
  if u < 8388608 then (u : ℤ) else (u : ℤ) - 16777216

/-- Reinterpret a 32-bit unsigned value as two's-complement `int32_t`. -/
def toSigned32 (u : ℕ) : ℤ :=
  if u < 2147483648 then (u : ℤ) else (u : ℤ) - 4294967296

/-- `static_cast<float>(samples[i]) / 32768.0f` for an `int16_t` sample given
by its two little-endian bytes (the `reinterpret_cast<const int16_t*>` read). -/
def cvtInt16 (b0 b1 : ℕ) : ℚ :=
  (toSigned16 (b0 + 256 * b1) : ℚ) / 32768

/-- The 24-bit sample conversion of the source: assemble
`(b0 << 8) | (b1 << 16) | (b2 << 24)` as an `int32_t` (two's complement),
arithmetic-shift right by 8 (the low byte is zero, so integer division by 256
is exact), then divide by `8388608.0f`. -/
def cvtInt24 (b0 b1 b2 : ℕ) : ℚ :=
  ((toSigned32 ((b0 * 256 + b1 * 65536 + b2 * 16777216) % 4294967296)) / 256 : ℤ) / 8388608

/-- Round a natural number to the nearest multiple of `ulp`, ties to the even
multiple (the IEEE-754 default rounding used by `static_cast<float>`). -/
def roundNearestEven (ulp m : ℕ) : ℕ :=
  let q := m / ulp
  let r := m % ulp
  if 2 * r < ulp then q * ulp
  else if ulp < 2 * r then (q + 1) * ulp
  else if q % 2 = 0 then q * ulp else (q + 1) * ulp

/-- Spacing of adjacent `float` values at integer magnitude `m`, for
`m ≤ 2^31`: a `float` carries a 24-bit significand, so integers up to `2^24`
are exactly representable and the spacing doubles with each further
binade. -/
def ulp32 (m : ℕ) : ℕ :=
  if m < 16777216 then 1
  else if m < 33554432 then 2
  else if m < 67108864 then 4
  else if m < 134217728 then 8
  else if m < 268435456 then 16
  else if m < 536870912 then 32
  else if m < 1073741824 then 64
  else 128

/-- `static_cast<float>` of an `int32_t` value: the magnitude is rounded to
the `float` grid (round to nearest, ties to even), so magnitudes above `2^24`
lose their low bits — e.g. `0x7FFFFFFF` becomes exactly `2^31`. -/
def toFloat32 (s : ℤ) : ℚ :=
  if s < 0 then -(roundNearestEven (ulp32 s.natAbs) s.natAbs : ℚ)
  else (roundNearestEven (ulp32 s.natAbs) s.natAbs : ℚ)

/-- `static_cast<float>(samples[i]) / 2147483648.0f` for an `int32_t` sample
given by its four little-endian bytes: the `int32 → float` cast rounds to the
24-bit-significand grid, and the subsequent division by the power of two
`2^31` is exact. -/
def cvtInt32 (b0 b1 b2 b3 : ℕ) : ℚ :=
  toFloat32 (toSigned32 (b0 + 256 * b1 + 65536 * b2 + 16777216 * b3)) / 2147483648

/-- Powers of two in `ℚ`, by structural recursion (kernel-reducible, unlike
the generic monoid power). -/
def pow2 : ℕ → ℚ
  | 0 => 1
  | n + 1 => 2 * pow2 n

/-- Value of an IEEE-754 binary32 number given by its four little-endian
bytes, as an exact rational.  Non-finite bit patterns (exponent 255: ±∞, NaN)
have no rational value; the formula is applied uniformly to them as a model
artifact — no claim in this development evaluates the decoder there. -/
def decodeFloat32 (b0 b1 b2 b3 : ℕ) : ℚ :=
  let sign : ℚ := if b3 < 128 then 1 else -1
  let expo : ℕ := (b3 % 128) * 2 + b2 / 128
  let mant : ℕ := (b2 % 128) * 65536 + b1 * 256 + b0
  if expo = 0 then sign * mant / pow2 149
  else sign * (8388608 + mant) * pow2 expo / pow2 150

/-- Bytes of the `"RIFF"` magic tag. -/
def riffTag : List ℕ := [82, 73, 70, 70]

/-- Bytes of the `"WAVE"` magic tag. -/
def waveTag : List ℕ := [87, 65, 86, 69]

/-- Bytes of the `"fmt "` chunk id. -/
def fmtTag : List ℕ := [102, 109, 116, 32]

/-- Bytes of the `"data"` chunk id. -/
def dataTag : List ℕ := [100, 97, 116, 97]

/-- The `fmt`-chunk scan loop of `TryReadWavDirect`: starting at `pos`, read
4-byte chunk id and 4-byte little-endian size; on the `"fmt "` chunk, reject a
size below 16, read `min(size, 40)` bytes (the `ReadFile` is not checked for a
short read there, and the destination struct is zero-initialized, so a short
read zero-pads), and return the 40-byte format record; otherwise skip the
chunk.  `fuel` bounds the recursion; each step advances `pos` by at least 8,
so `file.length + 1` steps always suffice. -/
def findFmt (file : List ℕ) : ℕ → ℕ → Option (List ℕ)
  | 0, _ => none
  | fuel + 1, pos =>
    let cid := readAt file pos 4
    if cid.length ≠ 4 then none
    else
      let szBytes := readAt file (pos + 4) 4
      if szBytes.length ≠ 4 then none
      else
        let chunkSize := le32at szBytes 0
        if cid = fmtTag then
          if chunkSize < 16 then none
          else
            let fmtReadSize := min chunkSize 40
            let raw := readAt file (pos + 8) fmtReadSize
            some (raw ++ List.replicate (40 - raw.length) 0)
        else findFmt file fuel (pos + 8 + chunkSize)

/-- The `data`-chunk scan loop of `TryReadWavDirect` (run from offset 12 after
`SetFilePointer(hFile, 12, …, FILE_BEGIN)`): returns the payload offset and
the chunk's declared size. -/
def findData (file : List ℕ) : ℕ → ℕ → Option (ℕ × ℕ)
  | 0, _ => none
  | fuel + 1, pos =>
    let cid := readAt file pos 4
    if cid.length ≠ 4 then none
    else
      let szBytes := readAt file (pos + 4) 4
      if szBytes.length ≠ 4 then none
      else
        let chunkSize := le32at szBytes 0
        if cid = dataTag then some (pos + 8, chunkSize)
        else findData file fuel (pos + 8 + chunkSize)

/-- Everything `TryReadWavDirect` learns before touching the output buffer. -/
structure WavInfo where
  tag : ℕ
  bits : ℕ
  dataPos : ℕ
  dataSize : ℕ
deriving DecidableEq, Repr

/-- The stages of `TryReadWavDirect` that precede any modification of the
output buffer: RIFF/WAVE header check, `fmt ` chunk scan, format-tag
normalization (`WAVE_FORMAT_EXTENSIBLE` with `cbSize ≥ 22` reads the first
word of `SubFormat` at offset 24), PCM/float admission, sample-rate and
channel-count match against the target, and the `data` chunk scan with its
nonzero-size check. -/
def parseWav (file : List ℕ) (targetSampleRate targetChannels : ℕ) : Option WavInfo :=
  let header := readAt file 0 12
  if header.length ≠ 12 then none
  else if ¬(header.take 4 = riffTag ∧ (header.drop 8).take 4 = waveTag) then none
  else
    match findFmt file (file.length + 1) 12 with
    | none => none
    | some f =>
      let wFormatTag := le16at f 0
      let cbSize := le16at f 16
      let actualFormatTag := if wFormatTag = 65534 ∧ 22 ≤ cbSize then le16at f 24 else wFormatTag
      if ¬(actualFormatTag = 1 ∨ actualFormatTag = 3) then none
      else if ¬(le32at f 4 = targetSampleRate ∧ le16at f 2 = targetChannels) then none
      else
        match findData file (file.length + 1) 12 with
        | none => none
        | some (dataPos, dataSize) =>
          if dataSize = 0 then none
          else some ⟨actualFormatTag, le16at f 14, dataPos, dataSize⟩

/-- `std::vector<float>::resize(n)`: keep the first `n` elements, value-
initialize (to `0.0f`) any new ones. -/
def resizeFill (old : List ℚ) (n : ℕ) : List ℚ :=
  old.take n ++ List.replicate (n - old.length) 0

/-- Sample `i` of a raw byte payload under each supported encoding. -/
def pcm16At (raw : List ℕ) (i : ℕ) : ℚ :=
  cvtInt16 (raw.getD (2 * i) 0) (raw.getD (2 * i + 1) 0)

/-- 24-bit sample `i` of a raw byte payload. -/
def pcm24At (raw : List ℕ) (i : ℕ) : ℚ :=
  cvtInt24 (raw.getD (3 * i) 0) (raw.getD (3 * i + 1) 0) (raw.getD (3 * i + 2) 0)

/-- 32-bit integer sample `i` of a raw byte payload. -/
def pcm32At (raw : List ℕ) (i : ℕ) : ℚ :=
  cvtInt32 (raw.getD (4 * i) 0) (raw.getD (4 * i + 1) 0) (raw.getD (4 * i + 2) 0)
    (raw.getD (4 * i + 3) 0)

/-- float32 sample `i` of a raw byte payload (bytes past the end read as 0,
matching the zero-initialized `resize` fill). -/
def f32At (raw : List ℕ) (i : ℕ) : ℚ :=
  decodeFloat32 (raw.getD (4 * i) 0) (raw.getD (4 * i + 1) 0) (raw.getD (4 * i + 2) 0)
    (raw.getD (4 * i + 3) 0)

/-- The payload stage of `TryReadWavDirect` (source lines 177–222): compute
`bytesPerSample = wBitsPerSample / 8` and `totalSamples = dataSize /
bytesPerSample`, `resize` the output buffer to `totalSamples` **before** any
read, then convert.  In the truncated float32 read, the bytes actually read
overwrite the front of the resized buffer and the function fails; a sample
straddling the read boundary is modelled with zero bytes past the boundary
(exact whenever the buffer held no prior nonzero data there, as at the one
call site, which always passes a freshly empty vector).  The C++ divides by
zero when `bits < 8`; the model's `Nat` division returns 0 samples there. -/
def convertPayload (tag bits dataPos dataSize : ℕ) (file : List ℕ) (old : List ℚ) :
    Bool × List ℚ :=
  let bytesPerSample := bits / 8
  let totalSamples := dataSize / bytesPerSample
  let resized := resizeFill old totalSamples
  if tag = 3 ∧ bits = 32 then
    let raw := readAt file dataPos dataSize
    if raw.length = dataSize then
      (true, (List.range totalSamples).map (f32At raw))
    else
      let written := min ((raw.length + 3) / 4) totalSamples
      (false, ((List.range written).map (f32At raw)) ++ resized.drop written)
  else if tag = 1 then
    let raw := readAt file dataPos dataSize
    if raw.length ≠ dataSize then (false, resized)
    else if bits = 16 then (true, (List.range totalSamples).map (pcm16At raw))
    else if bits = 24 then (true, (List.range totalSamples).map (pcm24At raw))
    else if bits = 32 then (true, (List.range totalSamples).map (pcm32At raw))
    else (false, resized)
  else (false, resized)

/-- `TryReadWavDirect(filePath, audioData, targetSampleRate, targetChannels)`:
returns the success flag and the final state of the in/out buffer
`audioData`. -/
def tryReadWavDirect (file : List ℕ) (audioData : List ℚ)
    (targetSampleRate targetChannels : ℕ) : Bool × List ℚ :=
  match parseWav file targetSampleRate targetChannels with
  | none => (false, audioData)
  | some info => convertPayload info.tag info.bits info.dataPos info.dataSize file audioData

/-- `fadeFrames` of `ApplyFade`: `static_cast<UINT32>(sampleRate * FADE_DURATION)`.
The cast truncates the exact product `sampleRate * (5/1000)` toward zero,
which is the natural-number division `sampleRate * 5 / 1000`; the lemma
`fadeFrames_floor` below checks this against the floor of the exact rational
product. -/
def fadeFrames (sampleRate : ℕ) : ℕ :=
  sampleRate * 5 / 1000

/-- Apply the same index transformation as a C++ indexed loop, carrying the
running index `k`. -/
def mapIdxFrom (f : ℕ → ℚ → ℚ) : ℕ → List ℚ → List ℚ
  | _, [] => []
  | k, x :: xs => f k x :: mapIdxFrom f (k + 1) xs

/-- `ApplyFade(audioData, sampleRate, channels)`: if
`totalFrames < fadeFrames * 2` the buffer is returned untouched; otherwise
sample `i * channels + ch` is multiplied by `i / fadeFrames` for frames
`i < fadeFrames` (fade in) and by `(totalFrames - i) / fadeFrames` for frames
`totalFrames - fadeFrames ≤ i < totalFrames` (fade out).  The two loop ranges
are disjoint under the guard, so the branch order is immaterial. -/
def applyFade (sampleRate channels : ℕ) (audioData : List ℚ) : List ℚ :=
  let fF := fadeFrames sampleRate
  let totalFrames := audioData.length / channels
  if totalFrames < fF * 2 then audioData
  else
    mapIdxFrom (fun k x =>
      let i := k / channels
      if i < fF then x * ((i : ℚ) / (fF : ℚ))
      else if totalFrames - fF ≤ i ∧ i < totalFrames then
        x * (((totalFrames - i : ℕ) : ℚ) / (fF : ℚ))
      else x) 0 audioData

/-- `GenerateSilence(sampleRate, channels)`: a zero-filled vector of
`static_cast<size_t>(sampleRate * SILENCE_DURATION * channels)` samples.  The
floor is taken of the whole product `sampleRate * (7/10) * channels`, i.e.
**after** multiplying by `channels`, which is the natural-number division
`sampleRate * 7 * channels / 10`; the lemma `generateSilence_floor` below
checks this against the floor of the exact rational product. -/
def generateSilence (sampleRate channels : ℕ) : List ℚ :=
  List.replicate (sampleRate * 7 * channels / 10) 0

/-- Environment of `DecodeAudioFile`: outcomes of the Media Foundation calls.
`openOk` is `MFCreateSourceReaderFromURL`; `configOk` collapses the media-type
creation/attribute/`SetCurrentMediaType` chain (each failure there breaks out
of the function identically, before the read loop).  `packets` are the
`ReadSample` deliveries until end-of-stream or read failure; a packet's flag
is false when `ConvertToContiguousBuffer`/`Lock` failed or no sample was
delivered, in which case the loop skips it and continues. -/
structure MfEnv where
  openOk : Bool
  configOk : Bool
  packets : List (List ℚ × Bool)

/-- The samples the Media Foundation read loop appends: the concatenation of
the successfully delivered packets. -/
def deliveredSamples (packets : List (List ℚ × Bool)) : List ℚ :=
  packets.foldl (fun acc p => if p.2 then acc ++ p.1 else acc) []

/-- `DecodeAudioFile(filePath, decodedData, …)`: on reader-open or
configuration failure it breaks out with `success = false` and the buffer as
it was; otherwise it appends each delivered packet to the buffer it was given
(never clearing it) and reports `success = !decodedData.empty()`. -/
def decodeAudioFile (env : MfEnv) (decodedData : List ℚ) : Bool × List ℚ :=
  if ¬env.openOk then (false, decodedData)
  else if ¬env.configOk then (false, decodedData)
  else
    let out := env.packets.foldl (fun acc p => if p.2 then acc ++ p.1 else acc) decodedData
    (!out.isEmpty, out)

/-- One iteration's worth of device interaction in the `PlayAudio` streaming
loop: the `WaitForSingleObject` outcome, and for a successful wake the
padding reported by `GetCurrentPadding` plus the outcomes of
`GetBuffer`/`ReleaseBuffer`. -/
inductive PlayEvent
  | timeout
  | waitFail
  | padFail
  | wake (padding : ℕ) (getBufOk releaseOk : Bool)
deriving DecidableEq, Repr

/-- How one source's feed loop ended. -/
inductive FeedStatus
  | done
  | exhausted
  | waitBroke
  | hrFailed
deriving DecidableEq, Repr

/-- A `memcpy` + `ReleaseBuffer` of `count` frames of source `src` starting at
frame `start`, performed while the device reported `padding` queued frames. -/
structure FrameWrite where
  src : ℕ
  start : ℕ
  count : ℕ
  padding : ℕ
deriving DecidableEq, Repr

/-- Result of feeding one source. -/
structure FeedResult where
  events : List PlayEvent
  frameIndex : ℕ
  writes : List FrameWrite
  status : FeedStatus
deriving DecidableEq, Repr

/-- The inner `while (frameIndex < totalFrames)` loop of `PlayAudio` for one
source: a timeout `continue`s; a wait failure breaks the loop *without
touching `hr`* (status `waitBroke`); a `GetCurrentPadding` failure breaks with
`FAILED(hr)` (status `hrFailed`); a successful wake with no free frames
`continue`s; otherwise `framesToWrite = min(bufferFrameCount - padding,
totalFrames - frameIndex)` frames are written at the cursor and the cursor
advances.  The event list doubles as fuel: an empty list with frames left is
`exhausted` (the C++ would keep waiting). -/
def feedSource (capacity totalFrames src : ℕ) :
    List PlayEvent → ℕ → List FrameWrite → FeedResult
  | events, frameIndex, acc =>
    if totalFrames ≤ frameIndex then ⟨events, frameIndex, acc, .done⟩
    else
      match events with
      | [] => ⟨[], frameIndex, acc, .exhausted⟩
      | e :: rest =>
        match e with
        | .timeout => feedSource capacity totalFrames src rest frameIndex acc
        | .waitFail => ⟨rest, frameIndex, acc, .waitBroke⟩
        | .padFail => ⟨rest, frameIndex, acc, .hrFailed⟩
        | .wake padding getBufOk releaseOk =>
          let numFramesAvailable := capacity - padding
          if numFramesAvailable = 0 then feedSource capacity totalFrames src rest frameIndex acc
          else
            let n := min numFramesAvailable (totalFrames - frameIndex)
            if ¬getBufOk then ⟨rest, frameIndex, acc, .hrFailed⟩
            else if ¬releaseOk then
              ⟨rest, frameIndex, acc ++ [⟨src, frameIndex, n, padding⟩], .hrFailed⟩
            else
              feedSource capacity totalFrames src rest (frameIndex + n)
                (acc ++ [⟨src, frameIndex, n, padding⟩])

/-- The `for (const auto* source : sources)` loop of `PlayAudio`: lead-in
first (source 0), then the program buffer (source 1); an empty source is
skipped by the `continue`.  After each source the code checks `if (FAILED(hr))
break;` — which only fires for `hrFailed`, *not* for a wait failure, since a
wait failure never assigns `hr`.  Returns the writes and both loop
statuses. -/
def playFeed (capacity channels : ℕ) (events : List PlayEvent)
    (leadIn audioData : List ℚ) : List FrameWrite × FeedStatus × FeedStatus :=
  let step1 :=
    if leadIn.isEmpty then (⟨events, 0, [], .done⟩ : FeedResult)
    else feedSource capacity (leadIn.length / channels) 0 events 0 []
  if step1.status = .hrFailed then (step1.writes, step1.status, step1.status)
  else
    let step2 :=
      if audioData.isEmpty then (⟨step1.events, 0, step1.writes, .done⟩ : FeedResult)
      else feedSource capacity (audioData.length / channels) 1 step1.events 0 step1.writes
    (step2.writes, step1.status, step2.status)

/-- Environment of `PlayAudio`: outcomes of the WASAPI initialization calls,
in source order, the ring buffer capacity reported by `GetBufferSize`, and
the per-iteration streaming events. -/
structure PlayEnv where
  enumOk : Bool
  deviceOk : Bool
  activateOk : Bool
  eventOk : Bool
  initOk : Bool
  setEventOk : Bool
  getBufSizeOk : Bool
  getServiceOk : Bool
  startOk : Bool
  bufferFrameCount : ℕ
  events : List PlayEvent

/-- All nine initialization steps of `PlayAudio` up to and including
`audioClient->Start()` succeed. -/
def playInitOk (env : PlayEnv) : Bool :=
  env.enumOk && env.deviceOk && env.activateOk && env.eventOk && env.initOk &&
    env.setEventOk && env.getBufSizeOk && env.getServiceOk && env.startOk

/-- `PlayAudio(audioData, mixFormat, leadIn)`: any failure before the stream
starts returns `false`; once the stream has started the function runs the
two-source feed loop, then the drain poll, the settle sleep and `Stop()`, and
sets `success = true` unconditionally — no streaming-loop failure reaches the
return value. -/
def playAudio (env : PlayEnv) (channels : ℕ) (audioData leadIn : List ℚ) :
    Bool × List FrameWrite :=
  if ¬env.enumOk then (false, [])
  else if ¬env.deviceOk then (false, [])
  else if ¬env.activateOk then (false, [])
  else if ¬env.eventOk then (false, [])
  else if ¬env.initOk then (false, [])
  else if ¬env.setEventOk then (false, [])
  else if ¬env.getBufSizeOk then (false, [])
  else if ¬env.getServiceOk then (false, [])
  else if ¬env.startOk then (false, [])
  else
    ((true, (playFeed env.bufferFrameCount channels env.events leadIn audioData).1))

/-- The sample stream a list of writes copies into the device buffer. -/
def writtenSamples (leadIn audioData : List ℚ) (channels : ℕ)
    (writes : List FrameWrite) : List ℚ :=
  writes.foldr (fun w rest =>
    (((if w.src = 0 then leadIn else audioData).drop (w.start * channels)).take
      (w.count * channels)) ++ rest) []

/-- The decode block of `wmain`: try the direct WAV reader on a fresh empty
buffer, and on failure fall back to the Media Foundation decoder, which
receives whatever state the direct attempt left in the buffer. -/
def decodeStage (file : List ℕ) (mfEnv : MfEnv) (rate ch : ℕ) : Bool × List ℚ :=
  let direct := tryReadWavDirect file [] rate ch
  if direct.1 then direct else decodeAudioFile mfEnv direct.2

/-- `wmain`: argument check, file-existence check, `CoInitializeEx`,
`MFStartup`, `GetDeviceMixFormat`, direct-path decode with Media Foundation
fallback, fade, silence synthesis, playback, and the exit-code mapping. -/
def wmainModel (argc : ℕ) (fileExists coInitOk mfStartupOk : Bool)
    (mixFormat : Option (ℕ × ℕ)) (file : List ℕ) (mfEnv : MfEnv)
    (playEnv : PlayEnv) : ℕ :=
  if argc ≠ 2 then 1
  else if ¬fileExists then 2
  else if ¬coInitOk then 4
  else if ¬mfStartupOk then 3
  else
    match mixFormat with
    | none => 4
    | some (rate, ch) =>
      let dec := decodeStage file mfEnv rate ch
      if ¬dec.1 then 3
      else
        let faded := applyFade rate ch dec.2
        let silence := generateSilence rate ch
        if ¬(playAudio playEnv ch faded silence).1 then 5 else 0

/-- A streaming trace event the `PlayAudio` loop consumes without error: a
timeout, or a fully successful wake whose reported padding does not exceed
the ring-buffer capacity (the WASAPI contract for `GetCurrentPadding`). -/
def goodEvent (capacity : ℕ) : PlayEvent → Bool
  | .timeout => true
  | .waitFail => false
  | .padFail => false
  | .wake padding getBufOk releaseOk => decide (padding ≤ capacity) && getBufOk && releaseOk

/-- The writes `ws` advance a frame cursor from `start` to `stop` with no gap,
no overlap and no empty write: each write begins where the previous one
ended. -/
def writeChain (start : ℕ) : List FrameWrite → ℕ → Prop
  | [], stop => start = stop
  | w :: ws, stop => w.start = start ∧ 0 < w.count ∧ writeChain (start + w.count) ws stop

/-- A `PlayAudio` environment whose nine initialization steps all succeed. -/
def streamEnv (capacity : ℕ) (events : List PlayEvent) : PlayEnv :=
  ⟨true, true, true, true, true, true, true, true, true, capacity, events⟩

/-- A `PlayAudio` environment in which `IMMDevice::Activate` fails (the
audio-client session cannot be created). -/
def noActivateEnv : PlayEnv :=
  ⟨true, true, false, true, true, true, true, true, true, 4, []⟩

/-- Fixture: a RIFF/WAVE file declaring 8-bit PCM at 44100 Hz stereo with a
one-byte data chunk.  8 bits is an unsupported depth, so the direct path
fails — but only after resizing the output buffer. -/
def fileBits8 : List ℕ :=
  [82, 73, 70, 70, 0, 0, 0, 0, 87, 65, 86, 69,
   102, 109, 116, 32, 16, 0, 0, 0,
   1, 0, 2, 0, 68, 172, 0, 0, 0, 0, 0, 0, 0, 0, 8, 0,
   100, 97, 116, 97, 1, 0, 0, 0, 0]

/-- Fixture: a RIFF/WAVE file declaring 16-bit PCM at 44100 Hz stereo whose
data chunk holds a single byte — fewer than one sample, so
`totalSamples = 0`. -/
def fileTiny16 : List ℕ :=
  [82, 73, 70, 70, 0, 0, 0, 0, 87, 65, 86, 69,
   102, 109, 116, 32, 16, 0, 0, 0,
   1, 0, 2, 0, 68, 172, 0, 0, 0, 0, 0, 0, 0, 0, 16, 0,
   100, 97, 116, 97, 1, 0, 0, 0, 0]

/-- Fixture: a RIFF/WAVE float32 file at 44100 Hz stereo whose single sample
is `2.0f` (bit pattern `0x40000000`) — a value outside `[-1, 1]`. -/
def fileFloat2 : List ℕ :=
  [82, 73, 70, 70, 0, 0, 0, 0, 87, 65, 86, 69,
   102, 109, 116, 32, 16, 0, 0, 0,
   3, 0, 2, 0, 68, 172, 0, 0, 0, 0, 0, 0, 0, 0, 32, 0,
   100, 97, 116, 97, 4, 0, 0, 0, 0, 0, 0, 64]

/-- Fixture: a well-formed 16-bit PCM file at 44100 Hz stereo holding the two
samples `0x4000 = 16384` and `0x8000 = -32768`, which decode to `1/2` and
`-1`. -/
def fileHalf16 : List ℕ :=
  [82, 73, 70, 70, 0, 0, 0, 0, 87, 65, 86, 69,
   102, 109, 116, 32, 16, 0, 0, 0,
   1, 0, 2, 0, 68, 172, 0, 0, 0, 0, 0, 0, 0, 0, 16, 0,
   100, 97, 116, 97, 4, 0, 0, 0, 0, 64, 0, 128]

theorem fadeFrames_floor (sampleRate : ℕ) :
    fadeFrames sampleRate = Nat.floor ((sampleRate : ℚ) * FADE_DURATION) := by
  have h : (sampleRate : ℚ) * FADE_DURATION = ((sampleRate * 5 : ℕ) : ℚ) / ((1000 : ℕ) : ℚ) := by
    unfold FADE_DURATION
    push_cast
    ring
  rw [h, Nat.floor_div_nat, Nat.floor_natCast]
  rfl

theorem mapIdxFrom_length (f : ℕ → ℚ → ℚ) :
    ∀ (k : ℕ) (l : List ℚ), (mapIdxFrom f k l).length = l.length
  | _, [] => rfl
  | k, x :: xs => by
    simp only [mapIdxFrom, List.length_cons, mapIdxFrom_length f (k + 1) xs]

theorem mapIdxFrom_getD (f : ℕ → ℚ → ℚ) :
    ∀ (l : List ℚ) (k j : ℕ), j < l.length →
      (mapIdxFrom f k l).getD j 0 = f (k + j) (l.getD j 0)
  | [], _, _, h => absurd h (by simp)
  | x :: xs, k, 0, _ => by simp [mapIdxFrom]
  | x :: xs, k, j + 1, h => by
    have hj : j < xs.length := by simpa using h
    have harith : k + 1 + j = k + (j + 1) := by omega
    simp only [mapIdxFrom, List.getD_cons_succ]
    rw [mapIdxFrom_getD f xs (k + 1) j hj, harith]

theorem mapIdxFrom_id (f : ℕ → ℚ → ℚ) (hf : ∀ k x, f k x = x) :
    ∀ (k : ℕ) (l : List ℚ), mapIdxFrom f k l = l
  | _, [] => rfl
  | k, x :: xs => by rw [mapIdxFrom, hf, mapIdxFrom_id f hf (k + 1) xs]

/-- C7 counterexample: at 44101 Hz stereo, `GenerateSilence` produces 61741
samples, whereas the claimed `floor(sampleRate × 0.7) × channelCount` is
`30870 × 2 = 61740`: the code floors only after multiplying by the channel
count. -/
theorem c7_counterexample :
    (generateSilence 44101 2).length = 61741 ∧
    Nat.floor ((44101 : ℚ) * SILENCE_DURATION) * 2 = 61740 := by
  constructor
  · unfold generateSilence
    rw [List.length_replicate]
  · have h : (44101 : ℚ) * SILENCE_DURATION = ((308707 : ℕ) : ℚ) / ((10 : ℕ) : ℚ) := by
      unfold SILENCE_DURATION
      norm_num
    rw [h, Nat.floor_div_nat, Nat.floor_natCast]

/-- C7 amended: `GenerateSilence` produces exactly
`floor(sampleRate × 0.7 × channelCount)` samples (the floor taken of the whole
product, not before multiplying by the channel count), all equal to zero. -/
theorem c7_silence (sampleRate channels : ℕ) :
    generateSilence sampleRate channels =
      List.replicate (Nat.floor ((sampleRate : ℚ) * SILENCE_DURATION * (channels : ℚ))) 0 := by
  unfold generateSilence
  have h : (sampleRate : ℚ) * SILENCE_DURATION * (channels : ℚ) =
      ((sampleRate * 7 * channels : ℕ) : ℚ) / ((10 : ℕ) : ℚ) := by
    unfold SILENCE_DURATION
    push_cast
    ring
  rw [h, Nat.floor_div_nat, Nat.floor_natCast]

/-- C10: for any sample rate below 200 Hz the fade window truncates to zero
frames, both fade loops run zero iterations, and `ApplyFade` returns every
buffer unchanged (in particular the zero `fadeFrames` value is never used as
a divisor). -/
theorem c10_no_fade_below_200 (sampleRate channels : ℕ) (data : List ℚ)
    (h : sampleRate < 200) : applyFade sampleRate channels data = data := by
  have hf : fadeFrames sampleRate = 0 := by
    unfold fadeFrames
    omega
  simp only [applyFade, hf, Nat.zero_mul]
  rw [if_neg (Nat.not_lt_zero _)]
  refine mapIdxFrom_id _ ?_ 0 data
  intro k x
  rw [if_neg (Nat.not_lt_zero _), if_neg]
  rintro ⟨h2, h3⟩
  rw [Nat.sub_zero] at h2
  exact absurd h3 (Nat.not_lt.mpr h2)

/-- C10 witness: a concrete 199 Hz buffer is returned unchanged. -/
theorem c10_witness : (199 : ℕ) < 200 ∧ applyFade 199 1 [3, 5] = [3, 5] :=
  ⟨by decide, c10_no_fade_below_200 199 1 [3, 5] (by decide)⟩

/-- C6: when a buffer holds at least `2 × fadeFrames` frames, `ApplyFade`
scales frame `i` of the first window by `i / fadeFrames` (frame 0 gets gain
0), leaves every frame between the two windows unchanged, and scales frame
`i` of the last window by `(totalFrames - i) / fadeFrames` (the last frame
gets gain `1 / fadeFrames`), per channel; a buffer with fewer than
`2 × fadeFrames` frames is left entirely unmodified. -/
theorem c6_apply_fade (sampleRate channels : ℕ) (data : List ℚ) (hch : 0 < channels) :
    (fadeFrames sampleRate * 2 ≤ data.length / channels →
      (∀ i c, i < fadeFrames sampleRate → c < channels →
        (applyFade sampleRate channels data).getD (i * channels + c) 0 =
          data.getD (i * channels + c) 0 * ((i : ℚ) / (fadeFrames sampleRate : ℚ))) ∧
      (∀ i c, fadeFrames sampleRate ≤ i →
        i < data.length / channels - fadeFrames sampleRate → c < channels →
        (applyFade sampleRate channels data).getD (i * channels + c) 0 =
          data.getD (i * channels + c) 0) ∧
      (∀ i c, data.length / channels - fadeFrames sampleRate ≤ i →
        i < data.length / channels → c < channels →
        (applyFade sampleRate channels data).getD (i * channels + c) 0 =
          data.getD (i * channels + c) 0 *
            (((data.length / channels - i : ℕ) : ℚ) / (fadeFrames sampleRate : ℚ)))) ∧
    (data.length / channels < fadeFrames sampleRate * 2 →
      applyFade sampleRate channels data = data) := by
  constructor
  · intro hlong
    obtain ⟨tF, htF⟩ : ∃ t, data.length / channels = t := ⟨_, rfl⟩
    rw [htF] at hlong ⊢
    have hng : ¬ (tF < fadeFrames sampleRate * 2) := Nat.not_lt.mpr hlong
    have hidx : ∀ i c, i < tF → c < channels → i * channels + c < data.length := by
      intro i c hi hc
      have h1 : i * channels + c < i * channels + channels := Nat.add_lt_add_left hc _
      have h1e : i * channels + channels = (i + 1) * channels := by ring
      have h2 : (i + 1) * channels ≤ tF * channels :=
        mul_le_mul_right' (Nat.succ_le_of_lt hi) channels
      have h3 : tF * channels ≤ data.length := by
        rw [← htF]
        exact Nat.div_mul_le_self data.length channels
      calc i * channels + c < (i + 1) * channels := h1e ▸ h1
        _ ≤ tF * channels := h2
        _ ≤ data.length := h3
    have hdiv : ∀ i c, c < channels → (i * channels + c) / channels = i := by
      intro i c hc
      rw [Nat.add_comm, Nat.add_mul_div_right c i hch, Nat.div_eq_of_lt hc, Nat.zero_add]
    have hmain : ∀ i c, i < tF → c < channels →
        (applyFade sampleRate channels data).getD (i * channels + c) 0 =
          (if i < fadeFrames sampleRate then
            data.getD (i * channels + c) 0 * ((i : ℚ) / (fadeFrames sampleRate : ℚ))
          else if tF - fadeFrames sampleRate ≤ i ∧ i < tF then
            data.getD (i * channels + c) 0 *
              (((tF - i : ℕ) : ℚ) / (fadeFrames sampleRate : ℚ))
          else data.getD (i * channels + c) 0) := by
      intro i c hi hc
      simp only [applyFade]
      rw [htF, if_neg hng, mapIdxFrom_getD _ data 0 _ (hidx i c hi hc)]
      simp only [Nat.zero_add, hdiv i c hc]
    refine ⟨?_, ?_, ?_⟩
    · intro i c hif hc
      have hi : i < tF := by omega
      rw [hmain i c hi hc, if_pos hif]
    · intro i c h1 h2 hc
      have hi : i < tF := by omega
      rw [hmain i c hi hc, if_neg (by omega : ¬ i < fadeFrames sampleRate), if_neg]
      rintro ⟨ha, _⟩
      omega
    · intro i c h1 h2 hc
      rw [hmain i c h2 hc, if_neg (by omega : ¬ i < fadeFrames sampleRate), if_pos ⟨h1, h2⟩]
  · intro hshort
    simp only [applyFade]
    rw [if_pos hshort]

/-- C6 witness: at 200 Hz mono (`fadeFrames = 1`) on a four-frame buffer,
frame 0 is scaled to gain 0, frames 1 and 2 are untouched, frame 3 gets gain
`(4 - 3) / 1`; a one-frame buffer is returned unmodified. -/
theorem c6_witness :
    (applyFade 200 1 [4, 4, 4, 4]).getD (0 * 1 + 0) 0 =
      ([4, 4, 4, 4] : List ℚ).getD (0 * 1 + 0) 0 * (((0 : ℕ) : ℚ) / (fadeFrames 200 : ℚ)) ∧
    (applyFade 200 1 [4, 4, 4, 4]).getD (1 * 1 + 0) 0 =
      ([4, 4, 4, 4] : List ℚ).getD (1 * 1 + 0) 0 ∧
    (applyFade 200 1 [4, 4, 4, 4]).getD (3 * 1 + 0) 0 =
      ([4, 4, 4, 4] : List ℚ).getD (3 * 1 + 0) 0 *
        ((((4 : ℕ) - 3 : ℕ) : ℚ) / (fadeFrames 200 : ℚ)) ∧
    applyFade 200 1 [9] = [9] := by
  refine ⟨?_, ?_, ?_, ?_⟩
  · exact ((c6_apply_fade 200 1 [4, 4, 4, 4] (by decide)).1 (by decide)).1 0 0
      (by decide) (by decide)
  · exact (((c6_apply_fade 200 1 [4, 4, 4, 4] (by decide)).1 (by decide)).2).1 1 0
      (by decide) (by decide) (by decide)
  · exact (((c6_apply_fade 200 1 [4, 4, 4, 4] (by decide)).1 (by decide)).2).2 3 0
      (by decide) (by decide) (by decide)
  · exact (c6_apply_fade 200 1 [9] (by decide)).2 (by decide)

theorem toSigned16_bounds (u : ℕ) (h : u < 65536) :
    -32768 ≤ toSigned16 u ∧ toSigned16 u < 32768 := by
  unfold toSigned16
  split <;> omega

theorem toSigned24_bounds (u : ℕ) (h : u < 16777216) :
    -8388608 ≤ toSigned24 u ∧ toSigned24 u < 8388608 := by
  unfold toSigned24
  split <;> omega

theorem toSigned32_bounds (u : ℕ) (h : u < 4294967296) :
    -2147483648 ≤ toSigned32 u ∧ toSigned32 u < 2147483648 := by
  unfold toSigned32
  split <;> omega

theorem qdiv_bounds {t : ℤ} {n : ℚ} (hn : 0 < n) (hlo : -n ≤ (t : ℚ)) (hhi : (t : ℚ) < n) :
    -1 ≤ (t : ℚ) / n ∧ (t : ℚ) / n < 1 := by
  constructor
  · rw [le_div_iff₀ hn]
    linarith
  · rw [div_lt_one hn]
    exact hhi

theorem cvtInt24_eq (b0 b1 b2 : ℕ) (h0 : b0 < 256) (h1 : b1 < 256) (h2 : b2 < 256) :
    cvtInt24 b0 b1 b2 = (toSigned24 (b0 + 256 * b1 + 65536 * b2) : ℚ) / 8388608 := by
  unfold cvtInt24
  have hm : (b0 * 256 + b1 * 65536 + b2 * 16777216) % 4294967296 =
      b0 * 256 + b1 * 65536 + b2 * 16777216 := Nat.mod_eq_of_lt (by omega)
  rw [hm]
  have key : toSigned32 (b0 * 256 + b1 * 65536 + b2 * 16777216) =
      256 * toSigned24 (b0 + 256 * b1 + 65536 * b2) := by
    unfold toSigned32 toSigned24
    have e : b0 * 256 + b1 * 65536 + b2 * 16777216 = 256 * (b0 + 256 * b1 + 65536 * b2) := by
      ring
    rw [e]
    by_cases hu : b0 + 256 * b1 + 65536 * b2 < 8388608
    · rw [if_pos (by omega), if_pos hu]
      push_cast
      ring
    · rw [if_neg (by omega), if_neg hu]
      push_cast
      ring
  rw [key, Int.mul_ediv_cancel_left _ (by norm_num)]

theorem pow2_eq (n : ℕ) : pow2 n = 2 ^ n := by
  induction n with
  | zero => rfl
  | succ n ih =>
    rw [pow2, ih, pow_succ]
    ring

theorem roundNearestEven_of_dvd (ulp m : ℕ) (hu : 0 < ulp) (hd : ulp ∣ m) :
    roundNearestEven ulp m = m := by
  obtain ⟨k, rfl⟩ := hd
  simp only [roundNearestEven, Nat.mul_mod_right, Nat.mul_div_cancel_left k hu]
  rw [if_pos (by omega)]
  exact Nat.mul_comm k ulp

theorem roundNearestEven_err (ulp m : ℕ) (hu : 0 < ulp) :
    2 * (roundNearestEven ulp m : ℤ) ≤ 2 * (m : ℤ) + (ulp : ℤ) ∧
    2 * (m : ℤ) ≤ 2 * (roundNearestEven ulp m : ℤ) + (ulp : ℤ) := by
  have key : ∀ q r : ℕ, r < ulp →
      2 * (roundNearestEven ulp (ulp * q + r) : ℤ) ≤ 2 * ((ulp * q + r : ℕ) : ℤ) + (ulp : ℤ) ∧
      2 * ((ulp * q + r : ℕ) : ℤ) ≤ 2 * (roundNearestEven ulp (ulp * q + r) : ℤ) + (ulp : ℤ) := by
    intro q r hr
    have hdiv : (ulp * q + r) / ulp = q := by
      rw [Nat.mul_add_div hu, Nat.div_eq_of_lt hr, Nat.add_zero]
    have hmod : (ulp * q + r) % ulp = r := by
      rw [Nat.mul_add_mod, Nat.mod_eq_of_lt hr]
    simp only [roundNearestEven, hdiv, hmod]
    split_ifs with h1 h2 h3
    · have h1z : 2 * (r : ℤ) < (ulp : ℤ) := by exact_mod_cast h1
      constructor <;> push_cast <;> nlinarith
    · have h2z : (ulp : ℤ) < 2 * (r : ℤ) := by exact_mod_cast h2
      constructor <;> push_cast <;> nlinarith
    · have he : 2 * r = ulp := by omega
      have hez : 2 * (r : ℤ) = (ulp : ℤ) := by exact_mod_cast he
      constructor <;> push_cast <;> nlinarith
    · have he : 2 * r = ulp := by omega
      have hez : 2 * (r : ℤ) = (ulp : ℤ) := by exact_mod_cast he
      constructor <;> push_cast <;> nlinarith
  obtain ⟨c1, c2⟩ := key (m / ulp) (m % ulp) (Nat.mod_lt m hu)
  rw [Nat.div_add_mod m ulp] at c1 c2
  exact ⟨c1, c2⟩

theorem roundNearestEven_le (ulp N m : ℕ) (hu : 0 < ulp) (hd : ulp ∣ N) (hm : m ≤ N) :
    roundNearestEven ulp m ≤ N := by
  rcases Nat.eq_or_lt_of_le hm with heq | hlt
  · subst heq
    exact le_of_eq (roundNearestEven_of_dvd ulp m hu hd)
  · have hq : m / ulp < N / ulp := Nat.div_lt_div_of_lt_of_dvd hd hlt
    have hup : (m / ulp + 1) * ulp ≤ N := by
      calc (m / ulp + 1) * ulp ≤ N / ulp * ulp := mul_le_mul_right' hq ulp
        _ = N := Nat.div_mul_cancel hd
    have hdown : m / ulp * ulp ≤ N := le_trans (Nat.div_mul_le_self m ulp) hm
    simp only [roundNearestEven]
    split_ifs <;> first | exact hdown | exact hup

theorem ulp32_pos (m : ℕ) : 0 < ulp32 m := by
  unfold ulp32
  split_ifs <;> norm_num

theorem ulp32_dvd (m : ℕ) : ulp32 m ∣ 2147483648 := by
  unfold ulp32
  split_ifs <;> norm_num

theorem ulp32_le (m : ℕ) : ulp32 m ≤ 128 := by
  unfold ulp32
  split_ifs <;> norm_num

theorem ulp32_dvd_self (m : ℕ) (hm : m ≤ 16777216) : ulp32 m ∣ m := by
  unfold ulp32
  split_ifs with h1 h2
  · exact one_dvd m
  · have h3 : m = 16777216 := by omega
    subst h3
    norm_num
  all_goals exfalso
  all_goals omega

theorem toFloat32_le (s : ℤ) (hs : s.natAbs ≤ 2147483648) :
    -2147483648 ≤ toFloat32 s ∧ toFloat32 s ≤ 2147483648 := by
  have hR : roundNearestEven (ulp32 s.natAbs) s.natAbs ≤ 2147483648 :=
    roundNearestEven_le _ _ _ (ulp32_pos _) (ulp32_dvd _) hs
  have hRq : (roundNearestEven (ulp32 s.natAbs) s.natAbs : ℚ) ≤ 2147483648 := by
    exact_mod_cast hR
  have hR0 : (0 : ℚ) ≤ (roundNearestEven (ulp32 s.natAbs) s.natAbs : ℚ) := by positivity
  unfold toFloat32
  split_ifs <;> constructor <;> linarith

theorem toFloat32_err (s : ℤ) : |toFloat32 s - (s : ℚ)| ≤ 64 := by
  obtain ⟨he1, he2⟩ := roundNearestEven_err (ulp32 s.natAbs) s.natAbs (ulp32_pos _)
  have hu := ulp32_le s.natAbs
  have he1q : 2 * (roundNearestEven (ulp32 s.natAbs) s.natAbs : ℚ) ≤
      2 * (s.natAbs : ℚ) + (ulp32 s.natAbs : ℚ) := by exact_mod_cast he1
  have he2q : 2 * (s.natAbs : ℚ) ≤
      2 * (roundNearestEven (ulp32 s.natAbs) s.natAbs : ℚ) + (ulp32 s.natAbs : ℚ) := by
    exact_mod_cast he2
  have huq : (ulp32 s.natAbs : ℚ) ≤ 128 := by exact_mod_cast hu
  rw [abs_le]
  unfold toFloat32
  split_ifs with hneg
  · have habs : ((s.natAbs : ℕ) : ℚ) = -(s : ℚ) := by
      rw [Int.cast_natAbs]
      exact_mod_cast abs_of_neg hneg
    constructor <;> linarith
  · have habs : ((s.natAbs : ℕ) : ℚ) = (s : ℚ) := by
      rw [Int.cast_natAbs]
      exact_mod_cast abs_of_nonneg (not_lt.mp hneg)
    constructor <;> linarith

theorem toFloat32_exact (s : ℤ) (hs : s.natAbs ≤ 16777216) : toFloat32 s = (s : ℚ) := by
  have hR : roundNearestEven (ulp32 s.natAbs) s.natAbs = s.natAbs :=
    roundNearestEven_of_dvd _ _ (ulp32_pos _) (ulp32_dvd_self _ hs)
  unfold toFloat32
  split_ifs with hneg
  · rw [hR]
    have h2 : ((s.natAbs : ℕ) : ℚ) = -(s : ℚ) := by
      rw [Int.cast_natAbs]
      exact_mod_cast abs_of_neg hneg
    rw [h2]
    ring
  · rw [hR]
    rw [Int.cast_natAbs]
    exact_mod_cast abs_of_nonneg (not_lt.mp hneg)

/-- C4 counterexample: the direct path accepts a float32 WAV holding the
value `2.0f` and copies it unchanged, so the produced sample lies outside
`[-1, 1]`. -/
theorem c4_counterexample :
    tryReadWavDirect fileFloat2 [] 44100 2 = (true, [2]) ∧ ¬ ((2 : ℚ) ≤ 1) := by
  constructor
  · have hp : parseWav fileFloat2 44100 2 = some ⟨3, 32, 44, 4⟩ := by decide
    have hraw : readAt fileFloat2 44 4 = [0, 0, 0, 64] := by decide
    simp only [tryReadWavDirect, hp, convertPayload, hraw]
    norm_num
    have h0 : f32At [0, 0, 0, 64] 0 = decodeFloat32 0 0 0 64 := by
      simp [f32At]
    rw [show List.range 1 = [0] from by decide, List.map_cons, List.map_nil, h0]
    simp only [decodeFloat32]
    norm_num [pow2_eq]
  · norm_num

/-- C4 amended: the 16-bit conversion divides by 32768 and the 24-bit
conversion reassembles three little-endian bytes with arithmetic sign
extension (the `<< 8` / arithmetic `>> 8` trick) and divides by 8388608, both
exactly — these magnitudes fit a `float`'s 24-bit significand — so each lies
in `[-1, 1)` and scaling back recovers the source sample exactly.  The
32-bit path first rounds the `int32` to the `float` grid and then divides by
2147483648 exactly: the result lies in `[-1, 1]` (inclusive — `0x7FFFFFFF`
rounds up to `2^31`, giving exactly 1), rescaling recovers the source only to
within 64 quantization steps (half the 128-step `float` spacing at full
scale), and is exact whenever the sample magnitude is at most `2^24`.
float32 samples are copied unchanged, with no `[-1, 1]` range guarantee. -/
theorem c4_conversion (b0 b1 b2 b3 : ℕ)
    (h0 : b0 < 256) (h1 : b1 < 256) (h2 : b2 < 256) (h3 : b3 < 256) :
    (-1 ≤ cvtInt16 b0 b1 ∧ cvtInt16 b0 b1 < 1 ∧
      cvtInt16 b0 b1 * 32768 = (toSigned16 (b0 + 256 * b1) : ℚ)) ∧
    (cvtInt24 b0 b1 b2 = (toSigned24 (b0 + 256 * b1 + 65536 * b2) : ℚ) / 8388608 ∧
      -1 ≤ cvtInt24 b0 b1 b2 ∧ cvtInt24 b0 b1 b2 < 1 ∧
      cvtInt24 b0 b1 b2 * 8388608 = (toSigned24 (b0 + 256 * b1 + 65536 * b2) : ℚ)) ∧
    (-1 ≤ cvtInt32 b0 b1 b2 b3 ∧ cvtInt32 b0 b1 b2 b3 ≤ 1 ∧
      |cvtInt32 b0 b1 b2 b3 * 2147483648 -
        (toSigned32 (b0 + 256 * b1 + 65536 * b2 + 16777216 * b3) : ℚ)| ≤ 64 ∧
      ((toSigned32 (b0 + 256 * b1 + 65536 * b2 + 16777216 * b3)).natAbs ≤ 16777216 →
        cvtInt32 b0 b1 b2 b3 * 2147483648 =
          (toSigned32 (b0 + 256 * b1 + 65536 * b2 + 16777216 * b3) : ℚ))) := by
  refine ⟨?_, ?_, ?_⟩
  · obtain ⟨hlo, hhi⟩ := toSigned16_bounds (b0 + 256 * b1) (by omega)
    unfold cvtInt16
    obtain ⟨d1, d2⟩ := qdiv_bounds (t := toSigned16 (b0 + 256 * b1)) (n := 32768)
      (by norm_num) (by exact_mod_cast hlo) (by exact_mod_cast hhi)
    exact ⟨d1, d2, div_mul_cancel₀ _ (by norm_num)⟩
  · obtain ⟨hlo, hhi⟩ := toSigned24_bounds (b0 + 256 * b1 + 65536 * b2) (by omega)
    rw [cvtInt24_eq b0 b1 b2 h0 h1 h2]
    obtain ⟨d1, d2⟩ := qdiv_bounds (t := toSigned24 (b0 + 256 * b1 + 65536 * b2)) (n := 8388608)
      (by norm_num) (by exact_mod_cast hlo) (by exact_mod_cast hhi)
    exact ⟨rfl, d1, d2, div_mul_cancel₀ _ (by norm_num)⟩
  · obtain ⟨hlo32, hhi32⟩ :=
      toSigned32_bounds (b0 + 256 * b1 + 65536 * b2 + 16777216 * b3) (by omega)
    have habs : (toSigned32 (b0 + 256 * b1 + 65536 * b2 + 16777216 * b3)).natAbs ≤
        2147483648 := by omega
    obtain ⟨hflo, hfhi⟩ := toFloat32_le _ habs
    refine ⟨?_, ?_, ?_, ?_⟩
    · unfold cvtInt32
      rw [le_div_iff₀ (by norm_num : (0 : ℚ) < 2147483648)]
      linarith
    · unfold cvtInt32
      rw [div_le_one (by norm_num : (0 : ℚ) < 2147483648)]
      exact hfhi
    · unfold cvtInt32
      rw [div_mul_cancel₀ _ (by norm_num : (2147483648 : ℚ) ≠ 0)]
      exact toFloat32_err _
    · intro hsmall
      unfold cvtInt32
      rw [div_mul_cancel₀ _ (by norm_num : (2147483648 : ℚ) ≠ 0)]
      exact toFloat32_exact _ hsmall

/-- C4 witness: concrete samples — 16-bit `0x4000`, 24-bit `0x800000`, and
the full-scale 32-bit `0x7FFFFFFF`, whose float conversion rounds — satisfy
the range and round-trip properties. -/
theorem c4_witness :
    (-1 ≤ cvtInt16 0 64 ∧ cvtInt16 0 64 < 1) ∧
    cvtInt24 0 0 128 = (toSigned24 (0 + 256 * 0 + 65536 * 128) : ℚ) / 8388608 ∧
    (-1 ≤ cvtInt32 255 255 255 127 ∧ cvtInt32 255 255 255 127 ≤ 1) ∧
    |cvtInt32 255 255 255 127 * 2147483648 -
      (toSigned32 (255 + 256 * 255 + 65536 * 255 + 16777216 * 127) : ℚ)| ≤ 64 := by
  refine ⟨⟨?_, ?_⟩, ?_, ⟨?_, ?_⟩, ?_⟩
  · exact (c4_conversion 0 64 0 0 (by decide) (by decide) (by decide) (by decide)).1.1
  · exact (c4_conversion 0 64 0 0 (by decide) (by decide) (by decide) (by decide)).1.2.1
  · exact ((c4_conversion 0 0 128 0 (by decide) (by decide) (by decide) (by decide)).2.1).1
  · exact ((c4_conversion 255 255 255 127 (by decide) (by decide) (by decide)
      (by decide)).2.2).1
  · exact ((c4_conversion 255 255 255 127 (by decide) (by decide) (by decide)
      (by decide)).2.2).2.1
  · exact ((c4_conversion 255 255 255 127 (by decide) (by decide) (by decide)
      (by decide)).2.2).2.2.1

theorem resizeFill_length (old : List ℚ) (n : ℕ) : (resizeFill old n).length = n := by
  unfold resizeFill
  rw [List.length_append, List.length_take, List.length_replicate]
  omega

theorem convertPayload_snd_length (tag bits dataPos dataSize : ℕ) (file : List ℕ)
    (old : List ℚ) :
    ((convertPayload tag bits dataPos dataSize file old).2).length = dataSize / (bits / 8) := by
  simp only [convertPayload]
  generalize dataSize / (bits / 8) = T
  split_ifs <;>
    simp [resizeFill_length, List.length_append, List.length_map, List.length_range,
      List.length_drop]

theorem parseWav_dataSize_ne_zero (file : List ℕ) (rate ch : ℕ) (info : WavInfo)
    (h : parseWav file rate ch = some info) : info.dataSize ≠ 0 := by
  simp only [parseWav] at h
  repeat' split at h
  all_goals try simp_all
  all_goals subst h
  all_goals simp_all

/-- C1 counterexample: on an 8-bit PCM file matching the target format, the
direct reader fails (unsupported depth) yet the output buffer it was given —
empty before the call — comes back resized to one zero sample: a partial
buffer is retained on failure. -/
theorem c1_counterexample :
    tryReadWavDirect fileBits8 [] 44100 2 = (false, [0]) ∧
    (tryReadWavDirect fileBits8 [] 44100 2).2 ≠ ([] : List ℚ) := by
  decide

/-- C1 amended: when `TryReadWavDirect` fails, either it failed before the
payload stage — header, `fmt ` scan, format checks, `data` scan — and the
buffer is exactly as given, or it failed in the payload stage (unsupported
bit depth or truncated payload read) and the buffer has been resized to
`dataSize / bytesPerSample` samples: the buffer is not restored on
payload-stage failure. -/
theorem c1_direct_failure_buffer (file : List ℕ) (old : List ℚ) (rate ch : ℕ)
    (h : (tryReadWavDirect file old rate ch).1 = false) :
    (tryReadWavDirect file old rate ch).2 = old ∨
    ∃ info, parseWav file rate ch = some info ∧
      (tryReadWavDirect file old rate ch).2.length = info.dataSize / (info.bits / 8) := by
  cases hp : parseWav file rate ch with
  | none =>
    left
    simp [tryReadWavDirect, hp]
  | some info =>
    right
    exact ⟨info, rfl, by simp [tryReadWavDirect, hp, convertPayload_snd_length]⟩

/-- C1 witness: a failure before the payload stage (unparseable file) leaves
a nonempty buffer unchanged. -/
theorem c1_witness :
    (tryReadWavDirect [] [1] 44100 2).1 = false ∧
    ((tryReadWavDirect [] [1] 44100 2).2 = [1] ∨
      ∃ info, parseWav [] 44100 2 = some info ∧
        (tryReadWavDirect [] [1] 44100 2).2.length = info.dataSize / (info.bits / 8)) :=
  ⟨by decide, c1_direct_failure_buffer [] [1] 44100 2 (by decide)⟩

/-- C2 counterexample: a 16-bit PCM file whose data chunk declares a single
byte is accepted by the direct path (`totalSamples = 0`), which returns
success with an empty buffer — the success guarantee of a non-empty,
frame-aligned buffer fails for `TryReadWavDirect`. -/
theorem c2_counterexample :
    tryReadWavDirect fileTiny16 [] 44100 2 = (true, ([] : List ℚ)) := by
  decide

theorem foldl_delivered (packets : List (List ℚ × Bool)) :
    ∀ a : List ℚ,
      packets.foldl (fun acc p => if p.2 then acc ++ p.1 else acc) a =
        a ++ deliveredSamples packets := by
  induction packets with
  | nil =>
    intro a
    simp [deliveredSamples]
  | cons p ps ih =>
    intro a
    simp only [deliveredSamples, List.foldl_cons] at ih ⊢
    split_ifs with hp
    · rw [ih (a ++ p.1), List.nil_append, ih p.1, List.append_assoc]
    · rw [ih a]

theorem decodeAudioFile_spec (env : MfEnv) (buf : List ℚ) :
    decodeAudioFile env buf =
      if env.openOk = true ∧ env.configOk = true then
        (!(buf ++ deliveredSamples env.packets).isEmpty, buf ++ deliveredSamples env.packets)
      else (false, buf) := by
  unfold decodeAudioFile
  by_cases h1 : env.openOk = true
  · by_cases h2 : env.configOk = true
    · rw [if_neg (by simp [h1]), if_neg (by simp [h2]), if_pos ⟨h1, h2⟩,
        foldl_delivered env.packets buf]
    · rw [if_neg (by simp [h1]), if_pos (by simp [h2]), if_neg (by tauto)]
  · rw [if_pos (by simp [h1]), if_neg (by tauto)]

/-- C2 amended: `DecodeAudioFile` success does guarantee a non-empty buffer;
`TryReadWavDirect` success guarantees only that a `data` chunk with nonzero
declared size was found and that the buffer holds exactly
`dataSize / bytesPerSample` samples — which may be zero and need not be a
multiple of the channel count. -/
theorem c2_success_buffer :
    (∀ env buf, (decodeAudioFile env buf).1 = true → (decodeAudioFile env buf).2 ≠ []) ∧
    (∀ file old rate ch, (tryReadWavDirect file old rate ch).1 = true →
      ∃ info, parseWav file rate ch = some info ∧ info.dataSize ≠ 0 ∧
        (tryReadWavDirect file old rate ch).2.length = info.dataSize / (info.bits / 8)) := by
  constructor
  · intro env buf h
    rw [decodeAudioFile_spec] at h ⊢
    split_ifs at h ⊢ with hc
    · intro he
      have hL : buf ++ deliveredSamples env.packets = [] := he
      rw [hL] at h
      simp at h
  · intro file old rate ch h
    cases hp : parseWav file rate ch with
    | none =>
      simp [tryReadWavDirect, hp] at h
    | some info =>
      exact ⟨info, rfl, parseWav_dataSize_ne_zero file rate ch info hp,
        by simp [tryReadWavDirect, hp, convertPayload_snd_length]⟩

/-- C2 witness: the Media Foundation decoder's success yields a non-empty
buffer, and a successful direct read reports the data-chunk accounting. -/
theorem c2_witness :
    ((decodeAudioFile ⟨true, true, [([1], true)]⟩ []).1 = true ∧
      (decodeAudioFile ⟨true, true, [([1], true)]⟩ []).2 ≠ []) ∧
    ((tryReadWavDirect fileTiny16 [] 44100 2).1 = true ∧
      ∃ info, parseWav fileTiny16 44100 2 = some info ∧ info.dataSize ≠ 0 ∧
        (tryReadWavDirect fileTiny16 [] 44100 2).2.length = info.dataSize / (info.bits / 8)) :=
  ⟨⟨by decide, c2_success_buffer.1 ⟨true, true, [([1], true)]⟩ [] (by decide)⟩,
   ⟨by decide, c2_success_buffer.2 fileTiny16 [] 44100 2 (by decide)⟩⟩

/-- C9 counterexample: when the source reader cannot be opened,
`DecodeAudioFile` returns failure even though the buffer it was handed is
non-empty afterward — the unconditional "success iff buffer non-empty
afterward" reading is false. -/
theorem c9_counterexample :
    decodeAudioFile ⟨false, true, []⟩ [0] = (false, [0]) ∧ ([0] : List ℚ) ≠ [] := by
  decide

/-- C9 amended: `DecodeAudioFile` appends the delivered packets to the buffer
it was given without clearing it, and — provided the reader opens and the
output type is configured — returns success exactly when the resulting
buffer is non-empty, so samples left behind by a failed direct-path attempt
survive into the output and count toward the success test even when the
media facility delivers zero samples. -/
theorem c9_decode_append (env : MfEnv) (buf : List ℚ)
    (hopen : env.openOk = true) (hconf : env.configOk = true) :
    (decodeAudioFile env buf).2 = buf ++ deliveredSamples env.packets ∧
    ((decodeAudioFile env buf).1 = true ↔ (decodeAudioFile env buf).2 ≠ []) := by
  rw [decodeAudioFile_spec, if_pos ⟨hopen, hconf⟩]
  constructor
  · rfl
  · simp

/-- C9 witness: with the reader open and configured but zero packets
delivered, a leftover buffer both survives and makes the call succeed. -/
theorem c9_witness :
    (decodeAudioFile ⟨true, true, []⟩ [0]).2 = [0] ++ deliveredSamples [] ∧
    ((decodeAudioFile ⟨true, true, []⟩ [0]).1 = true ↔
      (decodeAudioFile ⟨true, true, []⟩ [0]).2 ≠ []) :=
  c9_decode_append ⟨true, true, []⟩ [0] rfl rfl

theorem playAudio_fst (env : PlayEnv) (channels : ℕ) (audioData leadIn : List ℚ) :
    (playAudio env channels audioData leadIn).1 = playInitOk env := by
  unfold playAudio playInitOk
  split_ifs <;> simp_all

/-- C3 (code-bug evidence): after streaming has started, a wait failure, a
`GetBuffer` failure and a `GetCurrentPadding` failure each abandon the feed
loop with frames unwritten, yet `PlayAudio` still runs to `success = true` —
the session never ends in a failed state and the function returns success. -/
theorem c3_streamfail_returns_success :
    playAudio (streamEnv 4 [.waitFail]) 1 [0, 0] [] = (true, []) ∧
    playAudio (streamEnv 4 [.wake 0 false true]) 1 [0, 0] [] = (true, []) ∧
    playAudio (streamEnv 4 [.padFail]) 1 [0, 0] [] = (true, []) := by
  decide

/-- C5 counterexample: with a successful decode, a failure to create the
audio-client session inside `PlayAudio` exits with code 5 (the claim assigns
4 to "output device or session cannot be created"), and a streaming-loop
failure after a successful start exits with code 0 (the claim assigns 5). -/
theorem c5_counterexample :
    wmainModel 2 true true true (some (10, 2)) [] ⟨true, true, [([1], true)]⟩
      noActivateEnv = 5 ∧
    wmainModel 2 true true true (some (10, 2)) [] ⟨true, true, [([1], true)]⟩
      (streamEnv 4 [.waitFail]) = 0 := by
  decide

/-- C5 amended: exit codes are 0 on success; 1 when the argument count is not
exactly one path; 2 when the path does not exist (regardless of every other
input — no decode or device interaction can influence it); 3 when `MFStartup`
fails or neither decoding strategy succeeds; 4 when COM initialization or the
mix-format query fails; and 5 exactly when `PlayAudio` returns failure, which
happens only when one of its device/session initialization steps fails —
streaming-loop errors do not surface in the exit code. -/
theorem c5_exit_codes (argc : ℕ) (fe ci mf : Bool) (fmt : Option (ℕ × ℕ)) (file : List ℕ)
    (env : MfEnv) (penv : PlayEnv) :
    (argc ≠ 2 → wmainModel argc fe ci mf fmt file env penv = 1) ∧
    (argc = 2 → fe = false → wmainModel argc fe ci mf fmt file env penv = 2) ∧
    (argc = 2 → fe = true → ci = false → wmainModel argc fe ci mf fmt file env penv = 4) ∧
    (argc = 2 → fe = true → ci = true → mf = false →
      wmainModel argc fe ci mf fmt file env penv = 3) ∧
    (argc = 2 → fe = true → ci = true → mf = true → fmt = none →
      wmainModel argc fe ci mf fmt file env penv = 4) ∧
    (∀ rate ch, argc = 2 → fe = true → ci = true → mf = true → fmt = some (rate, ch) →
      ((decodeStage file env rate ch).1 = false →
        wmainModel argc fe ci mf fmt file env penv = 3) ∧
      ((decodeStage file env rate ch).1 = true → playInitOk penv = false →
        wmainModel argc fe ci mf fmt file env penv = 5) ∧
      ((decodeStage file env rate ch).1 = true → playInitOk penv = true →
        wmainModel argc fe ci mf fmt file env penv = 0)) := by
  refine ⟨?_, ?_, ?_, ?_, ?_, ?_⟩
  · intro h
    simp only [wmainModel]
    rw [if_pos h]
  · intro h1 h2
    simp only [wmainModel]
    rw [if_neg (by simp [h1]), if_pos (by simp [h2])]
  · intro h1 h2 h3
    simp only [wmainModel]
    rw [if_neg (by simp [h1]), if_neg (by simp [h2]), if_pos (by simp [h3])]
  · intro h1 h2 h3 h4
    simp only [wmainModel]
    rw [if_neg (by simp [h1]), if_neg (by simp [h2]), if_neg (by simp [h3]),
      if_pos (by simp [h4])]
  · intro h1 h2 h3 h4 h5
    simp only [wmainModel]
    rw [if_neg (by simp [h1]), if_neg (by simp [h2]), if_neg (by simp [h3]),
      if_neg (by simp [h4]), h5]
  · intro rate ch h1 h2 h3 h4 h5
    refine ⟨?_, ?_, ?_⟩
    · intro hdec
      simp only [wmainModel]
      rw [if_neg (by simp [h1]), if_neg (by simp [h2]), if_neg (by simp [h3]),
        if_neg (by simp [h4]), h5]
      simp only []
      rw [if_pos (by simp [hdec])]
    · intro hdec hplay
      simp only [wmainModel]
      rw [if_neg (by simp [h1]), if_neg (by simp [h2]), if_neg (by simp [h3]),
        if_neg (by simp [h4]), h5]
      simp only []
      rw [if_neg (by simp [hdec]), if_pos (by simp [playAudio_fst, hplay])]
    · intro hdec hplay
      simp only [wmainModel]
      rw [if_neg (by simp [h1]), if_neg (by simp [h2]), if_neg (by simp [h3]),
        if_neg (by simp [h4]), h5]
      simp only []
      rw [if_neg (by simp [hdec]), if_neg (by simp [playAudio_fst, hplay])]

/-- C5 witness: concrete environments exercising the wrong-argument, missing
file, playback-initialization-failure and success branches. -/
theorem c5_witness :
    wmainModel 3 true true true none [] ⟨true, true, []⟩ noActivateEnv = 1 ∧
    wmainModel 2 false true true none [] ⟨true, true, []⟩ noActivateEnv = 2 ∧
    wmainModel 2 true true true (some (10, 2)) [] ⟨true, true, [([2], true)]⟩
      noActivateEnv = 5 ∧
    wmainModel 2 true true true (some (10, 2)) [] ⟨true, true, [([2], true)]⟩
      (streamEnv 4 []) = 0 := by
  refine ⟨?_, ?_, ?_, ?_⟩
  · exact (c5_exit_codes 3 true true true none [] ⟨true, true, []⟩ noActivateEnv).1
      (by decide)
  · exact (c5_exit_codes 2 false true true none [] ⟨true, true, []⟩ noActivateEnv).2.1
      rfl rfl
  · exact ((c5_exit_codes 2 true true true (some (10, 2)) [] ⟨true, true, [([2], true)]⟩
      noActivateEnv).2.2.2.2.2 10 2 rfl rfl rfl rfl rfl).2.1 (by decide) (by decide)
  · exact ((c5_exit_codes 2 true true true (some (10, 2)) [] ⟨true, true, [([2], true)]⟩
      (streamEnv 4 [])).2.2.2.2.2 10 2 rfl rfl rfl rfl rfl).2.2 (by decide) (by decide)

theorem writeChain_nil (start stop : ℕ) : writeChain start [] stop ↔ start = stop :=
  Iff.rfl

theorem writeChain_cons (start stop : ℕ) (w : FrameWrite) (ws : List FrameWrite) :
    writeChain start (w :: ws) stop ↔
      w.start = start ∧ 0 < w.count ∧ writeChain (start + w.count) ws stop :=
  Iff.rfl

theorem writeChain_le : ∀ (ws : List FrameWrite) (start stop : ℕ),
    writeChain start ws stop → start ≤ stop
  | [], _, _, h => le_of_eq h
  | w :: ws, start, stop, h => by
    obtain ⟨h1, h2, h3⟩ := (writeChain_cons start stop w ws).mp h
    have := writeChain_le ws (start + w.count) stop h3
    omega

theorem writtenSamples_cons (leadIn audioData : List ℚ) (channels : ℕ)
    (w : FrameWrite) (ws : List FrameWrite) :
    writtenSamples leadIn audioData channels (w :: ws) =
      (((if w.src = 0 then leadIn else audioData).drop (w.start * channels)).take
        (w.count * channels)) ++ writtenSamples leadIn audioData channels ws :=
  rfl

theorem writtenSamples_append (leadIn audioData : List ℚ) (channels : ℕ)
    (xs ys : List FrameWrite) :
    writtenSamples leadIn audioData channels (xs ++ ys) =
      writtenSamples leadIn audioData channels xs ++
        writtenSamples leadIn audioData channels ys := by
  induction xs with
  | nil => rfl
  | cons w xs ih =>
    rw [List.cons_append, writtenSamples_cons, writtenSamples_cons, ih, List.append_assoc]

theorem writtenSamples_all_src (leadIn audioData s : List ℚ) (channels : ℕ) :
    ∀ ws, (∀ w ∈ ws, (if w.src = 0 then leadIn else audioData) = s) →
      writtenSamples leadIn audioData channels ws = writtenSamples s s channels ws := by
  intro ws
  induction ws with
  | nil => intro _; rfl
  | cons w ws ih =>
    intro hall
    have hw := hall w (List.mem_cons_self w ws)
    have hrest := fun x hx => hall x (List.mem_cons_of_mem w hx)
    rw [writtenSamples_cons, writtenSamples_cons, ih hrest, hw, ite_self]

theorem chain_written (s : List ℚ) (channels : ℕ) :
    ∀ (ws : List FrameWrite) (start stop : ℕ), writeChain start ws stop →
      writtenSamples s s channels ws =
        (s.drop (start * channels)).take ((stop - start) * channels) := by
  intro ws
  induction ws with
  | nil =>
    intro start stop h
    have h' : start = stop := h
    subst h'
    simp [writtenSamples]
  | cons w ws ih =>
    intro start stop h
    obtain ⟨h1, h2, h3⟩ := (writeChain_cons start stop w ws).mp h
    have hle := writeChain_le ws (start + w.count) stop h3
    rw [writtenSamples_cons, ih (start + w.count) stop h3, ite_self, h1]
    have hd : s.drop ((start + w.count) * channels) =
        (s.drop (start * channels)).drop (w.count * channels) := by
      rw [List.drop_drop]
      congr 1
      ring
    rw [hd, ← List.take_add]
    congr 1
    have : stop - start = w.count + (stop - (start + w.count)) := by omega
    rw [this, Nat.add_mul]

theorem feedSource_good (capacity src totalFrames : ℕ) :
    ∀ (events : List PlayEvent), (∀ e ∈ events, goodEvent capacity e = true) →
    ∀ (idx : ℕ) (acc : List FrameWrite), idx ≤ totalFrames →
    ∃ ws,
      (feedSource capacity totalFrames src events idx acc).writes = acc ++ ws ∧
      writeChain idx ws (feedSource capacity totalFrames src events idx acc).frameIndex ∧
      (∀ w ∈ ws, w.src = src ∧
        w.count = min (capacity - w.padding) (totalFrames - w.start)) ∧
      (feedSource capacity totalFrames src events idx acc).frameIndex ≤ totalFrames ∧
      ((feedSource capacity totalFrames src events idx acc).status = .done →
        (feedSource capacity totalFrames src events idx acc).frameIndex = totalFrames) ∧
      (feedSource capacity totalFrames src events idx acc).status ≠ .hrFailed ∧
      (feedSource capacity totalFrames src events idx acc).status ≠ .waitBroke ∧
      (∀ e ∈ (feedSource capacity totalFrames src events idx acc).events,
        goodEvent capacity e = true) := by
  intro events
  induction events with
  | nil =>
    intro hgood idx acc hle
    simp only [feedSource]
    split_ifs with hdone
    · exact ⟨[], by simp, rfl, by simp, hle, fun _ => by show idx = totalFrames; omega,
        by simp, by simp, by simp⟩
    · exact ⟨[], by simp, rfl, by simp, hle, fun habs => absurd habs (by simp), by simp,
        by simp, by simp⟩
  | cons e rest ih =>
    intro hgood idx acc hle
    have hgE : goodEvent capacity e = true := hgood e (List.mem_cons_self e rest)
    have hgR : ∀ x ∈ rest, goodEvent capacity x = true :=
      fun x hx => hgood x (List.mem_cons_of_mem e hx)
    simp only [feedSource]
    split_ifs with hdone
    · exact ⟨[], by simp, rfl, by simp, hle, fun _ => by show idx = totalFrames; omega,
        by simp, by simp, hgood⟩
    · cases e with
      | timeout => exact ih hgR idx acc hle
      | waitFail => simp [goodEvent] at hgE
      | padFail => simp [goodEvent] at hgE
      | wake p g r =>
        simp only [goodEvent, Bool.and_eq_true, decide_eq_true_eq] at hgE
        obtain ⟨⟨hp, hg⟩, hr⟩ := hgE
        subst hg
        subst hr
        dsimp only
        split_ifs with havail hbuf
        · exact ih hgR idx acc hle
        · have hn : 0 < min (capacity - p) (totalFrames - idx) := by omega
          obtain ⟨ws', h1, h2, h3, h4, h5, h6, h7, h8⟩ :=
            ih hgR (idx + min (capacity - p) (totalFrames - idx))
              (acc ++ [⟨src, idx, min (capacity - p) (totalFrames - idx), p⟩]) (by omega)
          refine ⟨⟨src, idx, min (capacity - p) (totalFrames - idx), p⟩ :: ws',
            ?_, ?_, ?_, h4, h5, h6, h7, h8⟩
          · rw [h1]
            exact (List.append_cons acc _ ws').symm
          · exact ⟨rfl, hn, h2⟩
          · intro w' hw'
            rcases List.mem_cons.mp hw' with hhead | htail
            · subst hhead
              exact ⟨rfl, rfl⟩
            · exact h3 w' htail
        · exact absurd rfl (by assumption)

/-- C8: over any trace of timeouts and fully successful wakes (padding within
capacity) under which both feed loops run to completion, `PlayAudio` writes
the lead-in buffer completely before the first program frame; each write puts
exactly `min(capacity - padding, remaining frames of the current source)`
frames at the current cursor and advances it by that amount, so the writes of
each source form a gapless, non-overlapping cover of its frames in order, and
the samples copied to the device are exactly the lead-in followed by the
program buffer. -/
theorem c8_stream_writes (capacity channels : ℕ) (events : List PlayEvent)
    (leadIn audioData : List ℚ) (hch : 0 < channels)
    (hgood : ∀ e ∈ events, goodEvent capacity e = true)
    (hl : channels ∣ leadIn.length) (ha : channels ∣ audioData.length)
    (hs1 : (playFeed capacity channels events leadIn audioData).2.1 = .done)
    (hs2 : (playFeed capacity channels events leadIn audioData).2.2 = .done) :
    ∃ ws0 ws1,
      (playFeed capacity channels events leadIn audioData).1 = ws0 ++ ws1 ∧
      (∀ w ∈ ws0, w.src = 0 ∧
        w.count = min (capacity - w.padding) (leadIn.length / channels - w.start)) ∧
      (∀ w ∈ ws1, w.src = 1 ∧
        w.count = min (capacity - w.padding) (audioData.length / channels - w.start)) ∧
      writeChain 0 ws0 (leadIn.length / channels) ∧
      writeChain 0 ws1 (audioData.length / channels) ∧
      writtenSamples leadIn audioData channels (ws0 ++ ws1) = leadIn ++ audioData := by
  simp only [playFeed] at hs1 hs2 ⊢
  by_cases hLe : leadIn.isEmpty = true
  · have hLnil : leadIn = [] := List.isEmpty_iff.mp hLe
    rw [if_pos hLe] at hs1 hs2 ⊢
    rw [if_neg (show (⟨events, 0, [], FeedStatus.done⟩ : FeedResult).status ≠
      FeedStatus.hrFailed by simp)] at hs1 hs2 ⊢
    by_cases hAe : audioData.isEmpty = true
    · have hAnil : audioData = [] := List.isEmpty_iff.mp hAe
      rw [if_pos hAe] at hs2 ⊢
      try dsimp only at hs2 ⊢
      refine ⟨[], [], by simp, by simp, by simp, ?_, ?_, ?_⟩
      · rw [hLnil]
        exact (writeChain_nil 0 _).mpr (by simp)
      · rw [hAnil]
        exact (writeChain_nil 0 _).mpr (by simp)
      · rw [hLnil, hAnil]
        rfl
    · rw [if_neg hAe] at hs2 ⊢
      try dsimp only at hs2 ⊢
      obtain ⟨ws1, hw1, hchain1, hprops1, _, hdone1, _, _, _⟩ :=
        feedSource_good capacity 1 (audioData.length / channels) events hgood 0 []
          (Nat.zero_le _)
      have hF1 := hdone1 hs2
      have hchain1T : writeChain 0 ws1 (audioData.length / channels) := hF1 ▸ hchain1
      refine ⟨[], ws1, ?_, by simp, fun w hw => hprops1 w hw, ?_, hchain1T, ?_⟩
      · rw [hw1]
      · rw [hLnil]
        exact (writeChain_nil 0 _).mpr (by simp)
      · rw [hLnil]
        simp only [List.nil_append]
        rw [writtenSamples_all_src [] audioData audioData channels ws1
          (fun w hw => by rw [(hprops1 w hw).1]; simp)]
        rw [chain_written audioData channels ws1 0 _ hchain1T]
        simp [Nat.div_mul_cancel ha]
  · rw [if_neg hLe] at hs1 hs2 ⊢
    obtain ⟨ws0, hw0, hchain0, hprops0, _, hdone0, hnhr0, _, hgoodR⟩ :=
      feedSource_good capacity 0 (leadIn.length / channels) events hgood 0 [] (Nat.zero_le _)
    rw [if_neg hnhr0] at hs1 hs2 ⊢
    try dsimp only at hs1 hs2 ⊢
    have hF0 := hdone0 hs1
    have hchain0T : writeChain 0 ws0 (leadIn.length / channels) := hF0 ▸ hchain0
    by_cases hAe : audioData.isEmpty = true
    · have hAnil : audioData = [] := List.isEmpty_iff.mp hAe
      rw [if_pos hAe] at hs2 ⊢
      try dsimp only at hs2 ⊢
      refine ⟨ws0, [], ?_, fun w hw => hprops0 w hw, by simp, hchain0T, ?_, ?_⟩
      · rw [hw0]
        simp
      · rw [hAnil]
        exact (writeChain_nil 0 _).mpr (by simp)
      · rw [hAnil]
        simp only [List.append_nil]
        rw [writtenSamples_all_src leadIn [] leadIn channels ws0
          (fun w hw => by rw [(hprops0 w hw).1]; simp)]
        rw [chain_written leadIn channels ws0 0 _ hchain0T]
        simp [Nat.div_mul_cancel hl]
    · rw [if_neg hAe] at hs2 ⊢
      try dsimp only at hs2 ⊢
      obtain ⟨ws1, hw1, hchain1, hprops1, _, hdone1, _, _, _⟩ :=
        feedSource_good capacity 1 (audioData.length / channels)
          (feedSource capacity (leadIn.length / channels) 0 events 0 []).events hgoodR 0
          (feedSource capacity (leadIn.length / channels) 0 events 0 []).writes
          (Nat.zero_le _)
      have hF1 := hdone1 hs2
      have hchain1T : writeChain 0 ws1 (audioData.length / channels) := hF1 ▸ hchain1
      refine ⟨ws0, ws1, ?_, fun w hw => hprops0 w hw, fun w hw => hprops1 w hw,
        hchain0T, hchain1T, ?_⟩
      · rw [hw1, hw0]
        simp
      · rw [writtenSamples_append]
        rw [writtenSamples_all_src leadIn audioData leadIn channels ws0
          (fun w hw => by rw [(hprops0 w hw).1]; simp)]
        rw [writtenSamples_all_src leadIn audioData audioData channels ws1
          (fun w hw => by rw [(hprops1 w hw).1]; simp)]
        rw [chain_written leadIn channels ws0 0 _ hchain0T,
          chain_written audioData channels ws1 0 _ hchain1T]
        simp [Nat.div_mul_cancel hl, Nat.div_mul_cancel ha]

/-- C8 witness: a concrete trace — one wake filling the one-frame lead-in, a
timeout, then wakes filling the two-frame program buffer — covers both
sources exactly once, in order. -/
theorem c8_witness :
    ∃ ws0 ws1,
      (playFeed 2 1 [.wake 0 true true, .timeout, .wake 0 true true, .wake 1 true true]
        [10] [20, 30]).1 = ws0 ++ ws1 ∧
      (∀ w ∈ ws0, w.src = 0 ∧
        w.count = min (2 - w.padding) (([10] : List ℚ).length / 1 - w.start)) ∧
      (∀ w ∈ ws1, w.src = 1 ∧
        w.count = min (2 - w.padding) (([20, 30] : List ℚ).length / 1 - w.start)) ∧
      writeChain 0 ws0 (([10] : List ℚ).length / 1) ∧
      writeChain 0 ws1 (([20, 30] : List ℚ).length / 1) ∧
      writtenSamples [10] [20, 30] 1 (ws0 ++ ws1) = [10] ++ [20, 30] :=
  c8_stream_writes 2 1 [.wake 0 true true, .timeout, .wake 0 true true, .wake 1 true true]
    [10] [20, 30] (by decide) (by decide) (by decide) (by decide) (by decide) (by decide)
